import Mathlib

/-!
Verification of the completions client: a shallow embedding of the retry
policy (retry.ts), the streaming response aggregator (createCompletions.ts,
function-call variant), the buffered response projection, the function
registry dispatch (createChat.ts / createUserFunction.ts) and the
conversation message log (createChat.ts), with theorems settling the
specification's claims about them.

External collaborators (fetch, JSON.parse, zod schema parsing, ajv schema
validation, jsonrepair) are modelled as abstract parameters; everything the
repository itself computes is translated directly from the source.
-/

namespace Completions

/-- Message and choice roles (RoleZodSchema of the function-call variant:
system, user, assistant, function). -/
inductive Role where
  | system
  | user
  | assistant
  | function
  deriving DecidableEq, Repr

/-- A function-call request or accumulator: name and raw arguments string. -/
structure FunctionCall where
  name : String
  arguments : String
  deriving DecidableEq, Repr

/-- A conversation log entry (MessageZodSchema): content, role, optional
name, optional function_call. -/
structure Message where
  content : String
  role : Role
  name : Option String := none
  function_call : Option FunctionCall := none
  deriving DecidableEq, Repr

/-- A fully aggregated choice (ChoiceZodSchema): role, content and
finishReason are required, function_call is optional. -/
structure Choice where
  role : Role
  content : String
  finishReason : String
  function_call : Option FunctionCall := none
  deriving DecidableEq, Repr

/-- An in-progress aggregation slot: the JS object that starts as `{}` in
`choices[choice.index] = choices[choice.index] ?? {}` and accumulates the
delta fields, each possibly still unset. -/
structure DraftChoice where
  role : Option Role := none
  content : Option String := none
  finishReason : Option String := none
  function_call : Option FunctionCall := none
  deriving DecidableEq, Repr

/-- Errors an operation wrapped by `retry` can raise: the designated
CancelledCompletionError (carrying the partially built choices array, which
at runtime holds partial objects and holes) is the only class the wrapper
refuses to retry; every other error is identified by its message. -/
inductive OpError where
  | cancelledCompletion (choices : List (Option DraftChoice))
  | other (message : String)
  deriving DecidableEq, Repr

/-- Outcome of the retry wrapper: a value, a re-raised operation error, or
the guard `throw new Error("Expected to never reach this point")` after the
while loop exits. -/
inductive RetryResult (A : Type) where
  | ok (value : A)
  | raised (error : OpError)
  | unreachablePoint
  deriving DecidableEq, Repr

/-- The `while (attempts++ < retries)` loop of retry.ts.  The routine is
modelled by the result of each successive invocation (argument = number of
invocations made so far).  Returns the outcome together with the number of
times the routine was invoked.  `retries` is never mutated by the source,
so the `if (retries === 0) throw error` branch inside the catch is dead
whenever `retries` starts positive. -/
def retryLoop {A : Type} (routine : Nat → Except OpError A) (retries attempts : Nat) :
    RetryResult A × Nat :=
  if _h : attempts < retries then
    match routine attempts with
    | .ok a => (.ok a, 1)
    | .error e =>
      match e with
      | .cancelledCompletion c => (.raised (.cancelledCompletion c), 1)
      | .other m =>
        if retries = 0 then (.raised (.other m), 1)
        else
          let r := retryLoop routine retries (attempts + 1)
          (r.1, r.2 + 1)
  else (.unreachablePoint, 0)
  termination_by retries - attempts
  decreasing_by omega

/-- retry.ts: `let retries = 3; let attempts = 0;` then the loop. -/
def retry {A : Type} (routine : Nat → Except OpError A) : RetryResult A × Nat :=
  retryLoop routine 3 0

/-- Errors raised by the conversation layer (createChat.ts) and the
function registry (createUserFunction.ts). -/
inductive ChatError where
  | noResult
  | noChoices
  | multipleChoices
  | functionNotFound (name : String)
  | jsonParseError (message : String)
  | invalidArguments (errors : List String)
  deriving DecidableEq, Repr

/-- A completion response as consumed by the conversation layer. -/
structure CompletionResponse where
  choices : List Choice
  deriving DecidableEq, Repr

/-- The result checks of `complete` in createChat.ts lines 88-104: reject a
missing response, an empty choices list and more than one choice; otherwise
return the single choice `choices[0]`. -/
def complete (response : Option CompletionResponse) : Except ChatError Choice :=
  match response with
  | none => .error .noResult
  | some r =>
    if r.choices.length = 0 then .error .noChoices
    else if r.choices.length > 1 then .error .multipleChoices
    else
      match r.choices with
      | c :: _ => .ok c
      | [] => .error .noChoices

/-- Whether an Except value is a success. -/
def exceptOk {ε α : Type} : Except ε α → Bool
  | .ok _ => true
  | .error _ => false

/-- The Message pushed for a returned choice: `messages.push(omit(choice,
"finishReason"))` keeps content, role and function_call and drops the
finishReason field (a Choice has no name field, so name is absent). -/
def omitFinishReason (c : Choice) : Message :=
  { content := c.content, role := c.role, name := none,
    function_call := c.function_call }

/-- The external inputs consumed by one completed `sendMessage` turn: the
prompt, the single validated choice returned by the first completion, the
serialized (JSON.stringify) result of the dispatched function, and the
single choice returned by the follow-up completion.  The last two are only
consumed when the first choice carries a function_call. -/
structure TurnInput where
  prompt : String
  first : Choice
  fnResult : String
  second : Choice
  deriving DecidableEq, Repr

/-- The message-log effect and return value of one completed `sendMessage`
call (createChat.ts lines 107-138): push the user message, push the first
choice without its finishReason; when that choice carries a function_call,
additionally push a function-role message holding the serialized function
result under the called function's name and return the follow-up
completion's choice (which is not pushed); otherwise return the first
choice. -/
def sendMessageLog (log : List Message) (t : TurnInput) : List Message × Choice :=
  let log := log ++ [{ content := t.prompt, role := .user }]
  let log := log ++ [omitFinishReason t.first]
  match t.first.function_call with
  | some fc =>
    (log ++ [{ content := t.fnResult, role := .function, name := some fc.name }],
      t.second)
  | none => (log, t.first)

/-- The log after a sequence of completed `sendMessage` turns, starting
from the empty conversation. -/
def runTurns (ts : List TurnInput) : List Message :=
  ts.foldl (fun log t => (sendMessageLog log t).1) []

/-- Whether a turn triggers a function round-trip: its first choice carries
a function_call. -/
def isFunctionTurn (t : TurnInput) : Bool :=
  t.first.function_call.isSome

/-- A choice requesting a function call, the follow-up reply, and a turn
consuming them: the concrete inputs of the weather-function scenario. -/
def exFnChoice : Choice :=
  { role := .assistant, content := "", finishReason := "function_call",
    function_call := some { name := "get_current_weather",
                            arguments := "\x7b\"location\":\"Albuquerque\"\x7d" } }

/-- The follow-up assistant reply of the function-call scenario. -/
def exFollowupChoice : Choice :=
  { role := .assistant, content := "It is sunny.", finishReason := "stop" }

/-- A completed turn that triggers exactly one function round-trip. -/
def exFnTurn : TurnInput :=
  { prompt := "What is the weather in Albuquerque?",
    first := exFnChoice,
    fnResult := "\x7b\"temperature\":\"72\"\x7d",
    second := exFollowupChoice }

/-- A routine failing twice with a transient error, then succeeding. -/
def exTransientRoutine : Nat → Except OpError Nat :=
  fun n => if n < 2 then .error (.other "boom") else .ok 7

/-- A routine that raises the cancellation error on its first invocation. -/
def exCancellingRoutine : Nat → Except OpError Nat :=
  fun _ => .error (.cancelledCompletion [])

/-- A buffered response carrying exactly two fully formed choices. -/
def bufferedTwoChoices : CompletionResponse :=
  { choices := [{ role := .assistant, content := "a", finishReason := "stop" },
                { role := .assistant, content := "b", finishReason := "stop" }] }

/-- A response carrying no choice at all. -/
def emptyResponse : CompletionResponse := { choices := [] }

/-! The streaming response aggregator (createCompletions.ts, function-call
variant).  A JS array indexed by remote-assigned slots is a list of
optional entries: assignment past the end extends the array with holes. -/

/-- JS array read `xs[i]`: a hole or an out-of-range index reads as
undefined. -/
def getSlot {α : Type} : List (Option α) → Nat → Option α
  | [], _ => none
  | x :: _, 0 => x
  | _ :: xs, n + 1 => getSlot xs n

/-- JS array write `xs[i] = v`: writing past the end extends the array to
length i + 1, filling the gap with holes. -/
def setSlot {α : Type} : List (Option α) → Nat → α → List (Option α)
  | [], 0, v => [some v]
  | [], n + 1, v => none :: setSlot [] n v
  | _ :: xs, 0, v => some v :: xs
  | x :: xs, n + 1, v => x :: setSlot xs n v

/-- One delta of the ResponseChunkZodSchema union (in source order: the
function-call object, whose content may be an explicit JSON null and whose
role and name are optional while arguments is required; a content-only
object; a role-only object; the empty object). -/
inductive Delta where
  | functionCallDelta (contentNull : Bool) (role : Option Role)
      (name : Option String) (arguments : String)
  | contentDelta (text : String)
  | roleDelta (role : Role)
  | emptyDelta
  deriving DecidableEq, Repr

/-- One per-choice entry of a response chunk: remote-assigned index,
nullable finish_reason, and the delta. -/
structure ChunkChoice where
  index : Nat
  finish_reason : Option String
  delta : Delta
  deriving DecidableEq, Repr

/-- One parsed stream frame (ResponseChunkZodSchema): envelope fields plus
the per-choice deltas. -/
structure ResponseChunk where
  id : String
  created : Int
  model : String
  choices : List ChunkChoice
  deriving DecidableEq, Repr

/-- The `"role" in choiceChunk.delta` test: the role carried by the delta,
when the key is present. -/
def deltaRole : Delta → Option Role
  | .roleDelta r => some r
  | .functionCallDelta _ r _ _ => r
  | _ => none

/-- The `"content" in choiceChunk.delta` test together with the value the
code appends: the content text, where an explicit null content in the
function-call branch coerces to the text "null" under the JS string
append `choice.content += choiceChunk.delta.content`. -/
def deltaContentText : Delta → Option String
  | .contentDelta t => some t
  | .functionCallDelta true _ _ _ => some "null"
  | _ => none

/-- The `"function_call" in choiceChunk.delta` test: the name fragment
(`?? ""` when absent) and the arguments fragment appended by the code. -/
def deltaFunctionCall : Delta → Option (String × String)
  | .functionCallDelta _ _ n args => some (n.getD "", args)
  | _ => none

/-- `if (... choiceChunk.finish_reason !== null) choice.finishReason =
choiceChunk.finish_reason`. -/
def updateFinish (choice : DraftChoice) (fr : Option String) : DraftChoice :=
  match fr with
  | some r => { choice with finishReason := some r }
  | none => choice

/-- `if ("role" in choiceChunk.delta) choice.role = choiceChunk.delta.role`. -/
def updateRole (choice : DraftChoice) (r : Option Role) : DraftChoice :=
  match r with
  | some r => { choice with role := some r }
  | none => choice

/-- `if ("content" in choiceChunk.delta) { choice.content = choice.content
?? ""; choice.content += choiceChunk.delta.content; }`. -/
def updateContent (choice : DraftChoice) (t : Option String) : DraftChoice :=
  match t with
  | some t => { choice with content := some ((choice.content.getD "") ++ t) }
  | none => choice

/-- `if ("function_call" in choiceChunk.delta) { choice.function_call =
choice.function_call ?? \x7b name: "", arguments: "" \x7d; ... += name ??
""; ... += arguments ?? ""; }`. -/
def updateFC (choice : DraftChoice) (f : Option (String × String)) : DraftChoice :=
  match f with
  | some (n, args) =>
    let fc := choice.function_call.getD { name := "", arguments := "" }
    { choice with
        function_call := some { name := fc.name ++ n,
                                arguments := fc.arguments ++ args } }
  | none => choice

/-- The sequential field mutations one per-choice delta performs on its
slot (function-call variant, lines 296-321). -/
def updateDraft (choice : DraftChoice) (cc : ChunkChoice) : DraftChoice :=
  updateFC
    (updateContent
      (updateRole (updateFinish choice cc.finish_reason) (deltaRole cc.delta))
      (deltaContentText cc.delta))
    (deltaFunctionCall cc.delta)

/-- The per-delta aggregation step (function-call variant, lines 291-322):
read `choices[index] ?? {}`, apply the delta's field mutations, and store
the slot back at the remote-assigned index. -/
def applyChunkChoice (choices : List (Option DraftChoice)) (cc : ChunkChoice) :
    List (Option DraftChoice) :=
  setSlot choices cc.index (updateDraft ((getSlot choices cc.index).getD {}) cc)

/-- The choices buffer after folding a sequence of per-choice deltas, in
arrival order, over the initially empty array. -/
def aggregateDeltas (ccs : List ChunkChoice) : List (Option DraftChoice) :=
  ccs.foldl applyChunkChoice []

/-- The failures createCompletions can raise: the unrecoverable remote
error (a brace-prefixed fragment, carrying the raw payload), the protocol
violation for a line without the data marker, a JSON/schema failure on a
data line, the cancellation error carrying the partial choices buffer, the
TypeError of reading a property of an undefined hole in the role-defaulting
loop, and the final ChoiceZodSchema array validation failure. -/
inductive CompletionsError where
  | unrecoverableRemote (payload : String)
  | unexpectedMessage (line : String)
  | chunkParseError (message : String)
  | cancelledCompletion (choices : List (Option DraftChoice))
  | typeError
  | choiceValidation
  deriving DecidableEq, Repr

/-- The mutable state of the read loop: the choices buffer and the
cancelled flag set by the cancel capability. -/
structure StreamState where
  choices : List (Option DraftChoice)
  cancelled : Bool
  deriving DecidableEq, Repr

/-- The state at the start of the read loop. -/
def initState : StreamState := { choices := [], cancelled := false }

/-- The opening brace character. -/
def lbrace : Char := Char.ofNat 123

/-- The one-character string holding the opening brace. -/
def lbraceStr : String := String.mk [lbrace]

/-- Character-list test that the first list starts with the second. -/
def charsHaveStart : List Char → List Char → Bool
  | _, [] => true
  | [], _ :: _ => false
  | c :: cs, d :: ds => c = d && charsHaveStart cs ds

/-- JS `s.startsWith(marker)`. -/
def jsStartsWith (s marker : String) : Bool :=
  charsHaveStart s.data marker.data

/-- JS `s.slice(n)` for a non-negative n. -/
def jsDrop (s : String) (n : Nat) : String :=
  String.mk (s.data.drop n)

/-- Split a character list on newline characters (JS `split("\n")`). -/
def splitNL (cs : List Char) : List (List Char) :=
  cs.foldr
    (fun c acc =>
      if c = '\n' then [] :: acc
      else
        match acc with
        | [] => [[c]]
        | h :: t => (c :: h) :: t)
    [[]]

/-- JS `chunk.trim()`: drop whitespace from both ends. -/
def trimChars (cs : List Char) : List Char :=
  ((cs.dropWhile Char.isWhitespace).reverse.dropWhile Char.isWhitespace).reverse

/-- `value.split("\n").map((chunk) => chunk.trim()).filter(Boolean)`: the
cleaned lines of one read fragment (so the later `if (chunk === "")
continue` guard is dead). -/
def fragmentLines (value : String) : List String :=
  ((splitNL value.data).map trimChars).filterMap
    (fun cs =>
      match cs with
      | [] => none
      | _ => some (String.mk cs))

/-- Outcome of handling one cleaned line: continue with the new state, stop
at the terminal sentinel (which cancels the reader and breaks the loop), or
fail. -/
inductive LineStep where
  | next (st : StreamState)
  | doneSentinel (st : StreamState)
  | fail (e : CompletionsError)
  deriving Repr

/-- Handle one cleaned line (function-call variant, lines 264-323): the
sentinel "data: [DONE]" cancels the reader and breaks; a line without the
"data: " marker is a protocol violation; otherwise strip the marker, parse
the remainder as a response chunk (JSON.parse plus
ResponseChunkZodSchema.parse, modelled by the abstract parseChunk), hand
the chunk to the onUpdate callback - whose only observable effect is
whether it invokes the cancel capability, modelled by its boolean result -
and fold the chunk's per-choice deltas into the buffer. -/
def processLine (parseChunk : String → Except String ResponseChunk)
    (onUpdate : Option (ResponseChunk → Bool)) (st : StreamState)
    (line : String) : LineStep :=
  if line = "data: [DONE]" then .doneSentinel st
  else if !(jsStartsWith line "data: ") then .fail (.unexpectedMessage line)
  else
    match parseChunk (jsDrop line 6) with
    | .error m => .fail (.chunkParseError m)
    | .ok chunk =>
      let cancelled :=
        st.cancelled ||
          (match onUpdate with
           | some f => f chunk
           | none => false)
      .next { choices := chunk.choices.foldl applyChunkChoice st.choices,
              cancelled := cancelled }

/-- Handle the cleaned lines of one fragment in order; invoking cancel does
not break this loop, only the sentinel does.  Returns the state and whether
the sentinel was reached. -/
def processLines (parseChunk : String → Except String ResponseChunk)
    (onUpdate : Option (ResponseChunk → Bool)) :
    StreamState → List String → Except CompletionsError (StreamState × Bool)
  | st, [] => .ok (st, false)
  | st, line :: rest =>
    match processLine parseChunk onUpdate st line with
    | .fail e => .error e
    | .doneSentinel st => .ok (st, true)
    | .next st => processLines parseChunk onUpdate st rest

/-- Handle one read fragment (lines 249-323): a fragment whose very first
byte is an opening brace is the remote side's synchronous JSON error
object - cancel the reader and raise the unrecoverable remote error
carrying the raw payload; otherwise process its cleaned lines. -/
def processFragment (parseChunk : String → Except String ResponseChunk)
    (onUpdate : Option (ResponseChunk → Bool)) (st : StreamState)
    (value : String) : Except CompletionsError (StreamState × Bool) :=
  if jsStartsWith value lbraceStr then .error (.unrecoverableRemote value)
  else processLines parseChunk onUpdate st (fragmentLines value)

/-- The read loop over the fragments delivered by the transport: once the
reader has been cancelled (by the cancel capability or the sentinel), the
next read reports done and no further fragment is consumed. -/
def runFragments (parseChunk : String → Except String ResponseChunk)
    (onUpdate : Option (ResponseChunk → Bool)) :
    StreamState → List String → Except CompletionsError StreamState
  | st, [] => .ok st
  | st, value :: rest =>
    if st.cancelled then .ok st
    else
      match processFragment parseChunk onUpdate st value with
      | .error e => .error e
      | .ok (st, true) => .ok st
      | .ok (st, false) => runFragments parseChunk onUpdate st rest

/-- A left-to-right traversal that stops at the first failure: the shape
of every JS for-of loop whose body can throw. -/
def mapExcept {ε α β : Type} (f : α → Except ε β) : List α → Except ε (List β)
  | [] => .ok []
  | x :: xs =>
    match f x with
    | .error e => .error e
    | .ok y =>
      match mapExcept f xs with
      | .error e => .error e
      | .ok ys => .ok (y :: ys)

/-- One step of the post-stream role-defaulting loop (lines 338-342): a
choice whose role was never set becomes "assistant"; iterating a JS array
hole visits it as undefined, and reading its role raises a TypeError. -/
def defaultRole (s : Option DraftChoice) : Except CompletionsError DraftChoice :=
  match s with
  | none => .error .typeError
  | some d =>
    .ok (if d.role = none then { d with role := some Role.assistant } else d)

/-- The post-stream role-defaulting loop over the whole buffer. -/
def normalizeRoles (slots : List (Option DraftChoice)) :
    Except CompletionsError (List DraftChoice) :=
  mapExcept defaultRole slots

/-- One entry of the final `ChoiceZodSchema.array().parse`: role, content
and finishReason must all be present; function_call stays optional. -/
def validateChoice (d : DraftChoice) : Except CompletionsError Choice :=
  match d.role, d.content, d.finishReason with
  | some r, some c, some f =>
    .ok { role := r, content := c, finishReason := f,
          function_call := d.function_call }
  | _, _, _ => .error .choiceValidation

/-- Role defaulting followed by the final shape validation, shared by the
streamed and the buffered paths. -/
def finalizeChoices (slots : List (Option DraftChoice)) :
    Except CompletionsError (List Choice) :=
  match normalizeRoles slots with
  | .error e => .error e
  | .ok ds => mapExcept validateChoice ds

/-- End of the streamed read (lines 331-346): a cancelled stream raises the
cancellation error carrying the partial choices buffer; otherwise the
buffer is normalized and validated. -/
def finalize (st : StreamState) : Except CompletionsError (List Choice) :=
  if st.cancelled then .error (.cancelledCompletion st.choices)
  else finalizeChoices st.choices

/-- createCompletions in streaming mode, from the fragments the transport
delivers: run the read loop, then finalize. -/
def createCompletionsStream (parseChunk : String → Except String ResponseChunk)
    (onUpdate : Option (ResponseChunk → Bool)) (fragments : List String) :
    Except CompletionsError (List Choice) :=
  match runFragments parseChunk onUpdate initState fragments with
  | .error e => .error e
  | .ok st => finalize st

/-- The message object of one choice of a buffered (non-streamed) JSON
response body; every field may be absent. -/
structure RawMessage where
  role : Option Role
  content : Option String
  function_call : Option FunctionCall
  deriving DecidableEq, Repr

/-- One choice of a buffered response body: the message plus the
finish_reason field. -/
structure RawBufferedChoice where
  message : RawMessage
  finish_reason : Option String
  deriving DecidableEq, Repr

/-- parseResponse of the buffered variant (part with buffered consumption,
lines 297-315): direct field projection, with a null content mapped to the
empty string (`choice.message.content ?? ""`). -/
def parseBufferedResponse (choices : List RawBufferedChoice) : List DraftChoice :=
  choices.map
    (fun bc =>
      { role := bc.message.role,
        content := some (bc.message.content.getD ""),
        finishReason := bc.finish_reason,
        function_call := bc.message.function_call })

/-- createCompletions in buffered mode: project the body's choices, then
apply the same role defaulting and shape validation as the streamed path. -/
def createCompletionsBuffered (choices : List RawBufferedChoice) :
    Except CompletionsError (List Choice) :=
  finalizeChoices ((parseBufferedResponse choices).map some)

/-- Observation helpers over the aggregation buffer: the accumulated
content of the slot at an index (undefined for a hole or a missing
field). -/
def slotContent (xs : List (Option DraftChoice)) (i : Nat) : Option String :=
  (getSlot xs i).bind (fun d => d.content)

/-- The accumulated function_call of the slot at an index. -/
def slotFunctionCall (xs : List (Option DraftChoice)) (i : Nat) :
    Option FunctionCall :=
  (getSlot xs i).bind (fun d => d.function_call)

/-- The content fragments a delta sequence carries for one index, in
arrival order (only the content-only union branch carries content text). -/
def contentFrags (ccs : List ChunkChoice) (i : Nat) : List String :=
  ccs.filterMap
    (fun cc =>
      if cc.index = i then
        match cc.delta with
        | .contentDelta t => some t
        | _ => none
      else none)

/-- The function-call (name, arguments) fragment pairs a delta sequence
carries for one index, in arrival order. -/
def fcFrags (ccs : List ChunkChoice) (i : Nat) : List (String × String) :=
  ccs.filterMap
    (fun cc => if cc.index = i then deltaFunctionCall cc.delta else none)

/-- Whether a delta is the function-call branch carrying an explicit JSON
null content - the one delta whose content update appends a coerced "null"
rather than a content fragment. -/
def isNullContentFC : Delta → Bool
  | .functionCallDelta true _ _ _ => true
  | _ => false


/-- The content accumulation step `choice.content = (choice.content ?? "")
+ fragment` as a fold function. -/
def contentStep (acc : Option String) (t : String) : Option String :=
  some ((acc.getD "") ++ t)

/-- The function-call accumulation step as a fold function. -/
def fcStep (acc : Option FunctionCall) (p : String × String) : Option FunctionCall :=
  let fc := acc.getD { name := "", arguments := "" }
  some { name := fc.name ++ p.1, arguments := fc.arguments ++ p.2 }

/-- Whether a completion outcome is the cancellation error. -/
def isCancelledOutcome : Except CompletionsError (List Choice) → Bool
  | .error (.cancelledCompletion _) => true
  | _ => false

/-- A registered user function as built by createUserFunction: unique
name, declared parameters schema (abstract type S, since JSON-Schema
internals are external), and the underlying callable from parsed argument
values (abstract type J) to results (abstract type R). -/
structure UserFunctionModel (S J R : Type) where
  name : String
  parameters : S
  func : J → R

/-- The `userFunctions[functionName]` lookup in the registry record. -/
def lookupFn {S J R : Type} (reg : List (String × UserFunctionModel S J R))
    (n : String) : Option (UserFunctionModel S J R) :=
  (reg.find? (fun p => p.1 == n)).map (fun p => p.2)

/-- parseArguments of createUserFunction.ts (jsonrepair variant): repair
the raw arguments string, JSON-parse it (both external, abstract), then
validate the parsed value against the declared parameters schema with ajv
(abstract validate: none means valid, some lists the violations); a
validation failure raises the invalid-arguments error carrying the
violations, otherwise the parsed value is returned. -/
def parseArgumentsModel {S J : Type} (repair : String → String)
    (jsonParse : String → Except String J)
    (validate : S → J → Option (List String)) (parameters : S)
    (argsString : String) : Except ChatError J :=
  match jsonParse (repair argsString) with
  | .error m => .error (.jsonParseError m)
  | .ok args =>
    match validate parameters args with
    | some errs => .error (.invalidArguments errs)
    | none => .ok args

/-- callFunction of createChat.ts: look the function up (failing with the
function-not-found error when absent), parse and validate its arguments,
then invoke the callable on exactly the parsed, validated value.  The
second component records the argument values the callable was actually
invoked with (empty on every error path). -/
def callFunctionModel {S J R : Type} (repair : String → String)
    (jsonParse : String → Except String J)
    (validate : S → J → Option (List String))
    (reg : List (String × UserFunctionModel S J R)) (functionName : String)
    (args : String) : Except ChatError R × List J :=
  match lookupFn reg functionName with
  | none => (.error (.functionNotFound functionName), [])
  | some uf =>
    match parseArgumentsModel repair jsonParse validate uf.parameters args with
    | .error e => (.error e, [])
    | .ok parsed => (.ok (uf.func parsed), [parsed])

/-! Concrete inputs used by witnesses and counterexamples. -/

/-- A parsed chunk with no per-choice deltas. -/
def exChunkEmpty : ResponseChunk :=
  { id := "x", created := 0, model := "m", choices := [] }

/-- A chunk parser recognizing only the payload "a" (as the empty chunk). -/
def parseOnlyA : String → Except String ResponseChunk :=
  fun s => if s = "a" then .ok exChunkEmpty else .error "bad json"

/-- A streaming callback that invokes the cancel capability on every
chunk. -/
def onUpdateCancel : Option (ResponseChunk → Bool) := some (fun _ => true)

/-- A fragment that is the remote side's synchronous JSON error object. -/
def exBraceFragment : String :=
  "\x7b\"error\":\x7b\"code\":\"context_length_exceeded\"\x7d\x7d"

/-- A function-call delta carrying an explicit null content. -/
def exNullContentCC : ChunkChoice :=
  { index := 0, finish_reason := none,
    delta := .functionCallDelta true none (some "f") "x" }

/-- Interleaved content and function-call deltas for slot 0. -/
def exInterleavedCCs : List ChunkChoice :=
  [ { index := 0, finish_reason := none, delta := .contentDelta "He" },
    { index := 0, finish_reason := none,
      delta := .functionCallDelta false none (some "get_") "\x7b\"lo" },
    { index := 0, finish_reason := none, delta := .contentDelta "llo" },
    { index := 0, finish_reason := some "stop",
      delta := .functionCallDelta false none (some "weather") "c\"\x7d" } ]

/-- A buffer slot whose role was never set by the wire. -/
def exDraftNoRole : DraftChoice :=
  { role := none, content := some "Pong", finishReason := some "stop" }

/-- A buffer slot whose role the wire set to user. -/
def exDraftUserRole : DraftChoice :=
  { role := some .user, content := some "x", finishReason := some "s" }

/-- A two-slot buffer exercising both role-defaulting cases. -/
def exRoleSlots : List (Option DraftChoice) :=
  [some exDraftNoRole, some exDraftUserRole]

/-- The validated choices produced from exRoleSlots. -/
def exRoleChoices : List Choice :=
  [ { role := .assistant, content := "Pong", finishReason := "stop" },
    { role := .user, content := "x", finishReason := "s" } ]

/-- A chunk whose only delta targets slot 1, leaving slot 0 a hole. -/
def exIdx1Chunk : ResponseChunk :=
  { id := "x", created := 0, model := "m",
    choices := [{ index := 1, finish_reason := some "stop",
                  delta := .contentDelta "hi" }] }

/-- A chunk parser recognizing only the payload "c1" (as exIdx1Chunk). -/
def parseOnlyC1 : String → Except String ResponseChunk :=
  fun s => if s = "c1" then .ok exIdx1Chunk else .error "bad json"

/-- A concrete registry for the dispatch witness: one function named
get_current_weather over schema 10 (numbers standing in for JSON values:
a parsed value is valid when it is at most the schema bound). -/
def exRegistry : List (String × UserFunctionModel Nat Nat Nat) :=
  [("get_current_weather",
    { name := "get_current_weather", parameters := 10, func := fun j => j + 1 })]

/-- A concrete JSON parser for the dispatch witness. -/
def exJsonParse : String → Except String Nat :=
  fun s => if s = "7" then .ok 7 else .error "Unexpected token"

/-- A concrete validator for the dispatch witness. -/
def exValidate : Nat → Nat → Option (List String) :=
  fun bound j => if j ≤ bound then none else some ["must be <= bound"]

/-- Entries one completed turn appends to the log: two for a plain turn,
three for a function round-trip turn (user, assistant, function result). -/
theorem sendMessageLog_length (log : List Message) (t : TurnInput) :
    ((sendMessageLog log t).1).length =
      log.length + (if isFunctionTurn t then 3 else 2) := by
  unfold sendMessageLog isFunctionTurn
  match h : t.first.function_call with
  | some fc => simp [h]
  | none => simp [h]

theorem runTurns_from_length (ts : List TurnInput) (log : List Message) :
    (ts.foldl (fun log t => (sendMessageLog log t).1) log).length =
      log.length + 2 * (ts.filter (fun t => !(isFunctionTurn t))).length +
        3 * (ts.filter (fun t => isFunctionTurn t)).length := by
  induction ts generalizing log with
  | nil => simp
  | cons t ts ih =>
    simp only [List.foldl_cons]
    rw [ih, sendMessageLog_length]
    by_cases h : isFunctionTurn t <;> simp [List.filter_cons, h] <;> omega

/-- Claim C1 fails on the code: a single completed turn with exactly one
function round-trip leaves a 3-entry log (user, assistant function-call
request, function result), not the 4 entries the claim demands, and the
follow-up assistant reply is not in the log at all. -/
theorem sendMessage_function_turn_log_counterexample :
    (runTurns [exFnTurn]).length = 3 ∧
    (runTurns [exFnTurn]).length ≠ 2 * 0 + 4 * 1 ∧
    omitFinishReason exFnTurn.second ∉ runTurns [exFnTurn] := by
  decide

/-- Claim C1 (amended): for every sequence of completed sendMessage turns,
the log length equals 2 times the number of turns without a function call
plus 3 times the number of turns with one function round-trip: each
function turn additionally records only the function-role result message;
the follow-up assistant reply is returned to the caller but not appended
to the log. -/
theorem getMessages_length (ts : List TurnInput) :
    (runTurns ts).length =
      2 * (ts.filter (fun t => !(isFunctionTurn t))).length +
        3 * (ts.filter (fun t => isFunctionTurn t)).length := by
  unfold runTurns
  rw [runTurns_from_length]
  simp

/-- Claim C2: the claim is right about the intended policy and the code is
wrong.  `retries` is initialized to 3 and never decremented, so the loop
`while (attempts++ < retries)` invokes the routine at most 3 times (not 4),
the dead `if (retries === 0) throw error` branch never re-raises the last
error, and after the budget is exhausted control reaches the guard
`throw new Error("Expected to never reach this point")` - the very point
the code itself asserts is unreachable.  Evaluated here on a routine that
fails every attempt with a transient error: 3 invocations, then the guard
error instead of the routine's last error. -/
theorem retry_exhausted_guard_error :
    retry (fun _ => (.error (.other "network error") : Except OpError Nat)) =
      (.unreachablePoint, 3) := by
  simp [retry, retryLoop]

/-- Claim C3: a routine that fails twice with transient (non-cancellation)
errors and then succeeds is invoked exactly three times and its success
value is returned; a routine that immediately raises the designated
cancellation error is invoked exactly once and that error is re-raised. -/
theorem retry_transient_and_cancellation {A : Type}
    (r s : Nat → Except OpError A) (a : A) (m0 m1 : String)
    (c : List (Option DraftChoice))
    (h0 : r 0 = .error (.other m0)) (h1 : r 1 = .error (.other m1))
    (h2 : r 2 = .ok a)
    (hc : s 0 = .error (.cancelledCompletion c)) :
    retry r = (.ok a, 3) ∧ retry s = (.raised (.cancelledCompletion c), 1) := by
  constructor
  · simp [retry, retryLoop, h0, h1, h2]
  · simp [retry, retryLoop, hc]

theorem retry_transient_and_cancellation_witness :
    retry exTransientRoutine = (.ok 7, 3) ∧
    retry exCancellingRoutine = (.raised (.cancelledCompletion []), 1) :=
  retry_transient_and_cancellation exTransientRoutine exCancellingRoutine
    7 "boom" "boom" [] rfl rfl rfl rfl

/-- Claim C4: the conversation layer's `complete` fails with the
no-choices error on an empty choices list, fails with the contract
violation error whenever more than one choice is present, returns the
single choice when exactly one is present, and succeeds exactly when the
choices list has length one. -/
theorem complete_exactly_one_choice (r : CompletionResponse) :
    (r.choices.length = 0 → complete (some r) = .error .noChoices) ∧
    (r.choices.length > 1 → complete (some r) = .error .multipleChoices) ∧
    (∀ c, r.choices = [c] → complete (some r) = .ok c) ∧
    (exceptOk (complete (some r)) = true ↔ r.choices.length = 1) := by
  rcases r with ⟨_ | ⟨c, _ | ⟨d, t⟩⟩⟩ <;> simp [complete, exceptOk]

theorem complete_exactly_one_choice_witness :
    complete (some bufferedTwoChoices) = .error .multipleChoices ∧
    complete (some emptyResponse) = .error .noChoices :=
  ⟨(complete_exactly_one_choice bufferedTwoChoices).2.1 (by decide),
   (complete_exactly_one_choice emptyResponse).1 (by decide)⟩

theorem getSlot_setSlot_self {α : Type} (xs : List (Option α)) (i : Nat) (v : α) :
    getSlot (setSlot xs i v) i = some v := by
  induction i generalizing xs with
  | zero => cases xs <;> simp [setSlot, getSlot]
  | succ n ih =>
    cases xs with
    | nil => simpa [setSlot, getSlot] using ih []
    | cons x xs => simpa [setSlot, getSlot] using ih xs

theorem getSlot_setSlot_ne {α : Type} (xs : List (Option α)) (i j : Nat) (v : α)
    (h : i ≠ j) : getSlot (setSlot xs i v) j = getSlot xs j := by
  induction j generalizing xs i with
  | zero =>
    cases i with
    | zero => exact absurd rfl h
    | succ n => cases xs <;> simp [setSlot, getSlot]
  | succ m ih =>
    cases i with
    | zero => cases xs <;> simp [setSlot, getSlot]
    | succ n =>
      cases xs with
      | nil => simpa [setSlot, getSlot] using ih [] n (by omega)
      | cons x t => simpa [setSlot, getSlot] using ih t n (by omega)

theorem setSlot_length {α : Type} (xs : List (Option α)) (i : Nat) (v : α) :
    (setSlot xs i v).length = max xs.length (i + 1) := by
  induction i generalizing xs with
  | zero => cases xs <;> simp [setSlot]
  | succ n ih =>
    cases xs with
    | nil => simp [setSlot, ih []]
    | cons x t => simp [setSlot, ih t]; omega

/-- Claim C5 fails as universally stated: cancel is invoked while handling
the first line, yet the remainder of the same fragment contains a protocol
violation, so the aggregation raises the unexpected-message error, not the
cancellation error. -/
theorem cancellation_error_counterexample :
    createCompletionsStream parseOnlyA onUpdateCancel ["data: a\nb"] =
      .error (.unexpectedMessage "b") ∧
    isCancelledOutcome
      (createCompletionsStream parseOnlyA onUpdateCancel ["data: a\nb"]) =
        false := by
  exact ⟨rfl, rfl⟩

/-- Claim C5 (amended): when the cancel capability was invoked during the
read (the final state's cancelled flag is set) and the rest of the read
completes without a protocol or parse failure, the aggregation raises the
cancellation error carrying the choices as built at that point, never a
normal result; and any read-loop failure also precludes a normal result. -/
theorem cancelled_stream_raises_cancellation
    (parseChunk : String → Except String ResponseChunk)
    (onUpdate : Option (ResponseChunk → Bool)) (fragments : List String) :
    (∀ st, runFragments parseChunk onUpdate initState fragments = .ok st →
      st.cancelled = true →
      createCompletionsStream parseChunk onUpdate fragments =
        .error (.cancelledCompletion st.choices)) ∧
    (∀ e, runFragments parseChunk onUpdate initState fragments = .error e →
      createCompletionsStream parseChunk onUpdate fragments = .error e) := by
  constructor
  · intro st h hc
    simp [createCompletionsStream, h, finalize, hc]
  · intro e h
    simp [createCompletionsStream, h]

theorem cancelled_stream_raises_cancellation_witness :
    createCompletionsStream parseOnlyA onUpdateCancel ["data: a"] =
      .error (.cancelledCompletion []) :=
  (cancelled_stream_raises_cancellation parseOnlyA onUpdateCancel
    ["data: a"]).1 { choices := [], cancelled := true } rfl rfl

/-- Claim C6: a read fragment whose very first byte is the opening brace
aborts the read with the unrecoverable remote error carrying that raw
payload; the fragment is never split into frames, so nothing from it is
aggregated and no later fragment is consumed. -/
theorem brace_fragment_unrecoverable
    (parseChunk : String → Except String ResponseChunk)
    (onUpdate : Option (ResponseChunk → Bool)) (st : StreamState)
    (rest : List String) (value : String)
    (h : jsStartsWith value lbraceStr = true) (hnc : st.cancelled = false) :
    runFragments parseChunk onUpdate st (value :: rest) =
      .error (.unrecoverableRemote value) := by
  unfold runFragments
  rw [hnc]
  simp [processFragment, h]

theorem brace_fragment_unrecoverable_witness :
    runFragments parseOnlyA onUpdateCancel initState [exBraceFragment] =
      .error (.unrecoverableRemote exBraceFragment) :=
  brace_fragment_unrecoverable parseOnlyA onUpdateCancel initState []
    exBraceFragment (by decide) rfl

theorem updateDraft_content (d : DraftChoice) (cc : ChunkChoice) :
    (updateDraft d cc).content =
      match deltaContentText cc.delta with
      | some t => some ((d.content.getD "") ++ t)
      | none => d.content := by
  unfold updateDraft updateFC updateContent updateRole updateFinish
  cases cc.finish_reason <;> cases deltaRole cc.delta <;>
    cases deltaContentText cc.delta <;>
      rcases deltaFunctionCall cc.delta with _ | ⟨n, args⟩ <;> simp

theorem updateDraft_function_call (d : DraftChoice) (cc : ChunkChoice) :
    (updateDraft d cc).function_call =
      match deltaFunctionCall cc.delta with
      | some (n, args) =>
        some { name := (d.function_call.getD { name := "", arguments := "" }).name ++ n,
               arguments :=
                 (d.function_call.getD { name := "", arguments := "" }).arguments ++ args }
      | none => d.function_call := by
  unfold updateDraft updateFC updateContent updateRole updateFinish
  cases cc.finish_reason <;> cases deltaRole cc.delta <;>
    cases deltaContentText cc.delta <;>
      rcases deltaFunctionCall cc.delta with _ | ⟨n, args⟩ <;> simp

theorem slotContent_apply (xs : List (Option DraftChoice)) (cc : ChunkChoice) (i : Nat) :
    slotContent (applyChunkChoice xs cc) i =
      if cc.index = i then
        match deltaContentText cc.delta with
        | some t => some (((slotContent xs i).getD "") ++ t)
        | none => slotContent xs i
      else slotContent xs i := by
  unfold applyChunkChoice slotContent
  by_cases h : cc.index = i
  · subst h
    rw [getSlot_setSlot_self, if_pos rfl]
    cases hg : getSlot xs cc.index <;> cases hd : deltaContentText cc.delta <;>
      simp [updateDraft_content, hg, hd]
  · rw [getSlot_setSlot_ne _ _ _ _ h, if_neg h]

theorem slotFunctionCall_apply (xs : List (Option DraftChoice)) (cc : ChunkChoice) (i : Nat) :
    slotFunctionCall (applyChunkChoice xs cc) i =
      if cc.index = i then
        match deltaFunctionCall cc.delta with
        | some (n, args) =>
          some { name :=
                   ((slotFunctionCall xs i).getD { name := "", arguments := "" }).name ++ n,
                 arguments :=
                   ((slotFunctionCall xs i).getD { name := "", arguments := "" }).arguments
                     ++ args }
        | none => slotFunctionCall xs i
      else slotFunctionCall xs i := by
  unfold applyChunkChoice slotFunctionCall
  by_cases h : cc.index = i
  · subst h
    rw [getSlot_setSlot_self, if_pos rfl]
    cases hg : getSlot xs cc.index <;>
      rcases hd : deltaFunctionCall cc.delta with _ | ⟨n, args⟩ <;>
        simp [updateDraft_function_call, hg, hd]
  · rw [getSlot_setSlot_ne _ _ _ _ h, if_neg h]

theorem slotContent_foldl (ccs : List ChunkChoice) (i : Nat)
    (xs : List (Option DraftChoice))
    (hnull : ∀ cc ∈ ccs, cc.index = i → isNullContentFC cc.delta = false) :
    slotContent (ccs.foldl applyChunkChoice xs) i =
      (contentFrags ccs i).foldl contentStep (slotContent xs i) := by
  induction ccs generalizing xs with
  | nil => simp [contentFrags]
  | cons cc ccs ih =>
    have hnull' : ∀ c ∈ ccs, c.index = i → isNullContentFC c.delta = false :=
      fun c hc => hnull c (List.mem_cons_of_mem _ hc)
    simp only [List.foldl_cons]
    rw [ih _ hnull']
    by_cases hi : cc.index = i
    · cases hdelta : cc.delta with
      | contentDelta t =>
        simp [contentFrags, List.filterMap_cons, hi, hdelta, slotContent_apply,
          deltaContentText, contentStep]
      | functionCallDelta b r n a =>
        cases b with
        | true =>
          have := hnull cc (List.mem_cons_self _ _) hi
          rw [hdelta] at this
          simp [isNullContentFC] at this
        | false =>
          simp [contentFrags, List.filterMap_cons, hi, hdelta, slotContent_apply,
            deltaContentText]
      | roleDelta r =>
        simp [contentFrags, List.filterMap_cons, hi, hdelta, slotContent_apply,
          deltaContentText]
      | emptyDelta =>
        simp [contentFrags, List.filterMap_cons, hi, hdelta, slotContent_apply,
          deltaContentText]
    · simp [contentFrags, List.filterMap_cons, hi, slotContent_apply]

theorem slotFunctionCall_foldl (ccs : List ChunkChoice) (i : Nat)
    (xs : List (Option DraftChoice)) :
    slotFunctionCall (ccs.foldl applyChunkChoice xs) i =
      (fcFrags ccs i).foldl fcStep (slotFunctionCall xs i) := by
  induction ccs generalizing xs with
  | nil => simp [fcFrags]
  | cons cc ccs ih =>
    simp only [List.foldl_cons]
    rw [ih]
    by_cases hi : cc.index = i
    · rcases hd : deltaFunctionCall cc.delta with _ | ⟨n, args⟩
      · simp [fcFrags, List.filterMap_cons, hi, hd, slotFunctionCall_apply]
      · simp [fcFrags, List.filterMap_cons, hi, hd, slotFunctionCall_apply, fcStep]
    · simp [fcFrags, List.filterMap_cons, hi, slotFunctionCall_apply]

theorem foldl_contentStep_some (frags : List String) (a : String) :
    frags.foldl contentStep (some a) = some (frags.foldl (fun r s => r ++ s) a) := by
  induction frags generalizing a with
  | nil => rfl
  | cons t ts ih => simp [List.foldl_cons, contentStep, ih]

theorem foldl_contentStep_none (frags : List String) :
    frags.foldl contentStep none =
      if frags = [] then none else some (String.join frags) := by
  cases frags with
  | nil => rfl
  | cons t ts =>
    simp [List.foldl_cons, contentStep, foldl_contentStep_some, String.join]

theorem foldl_fcStep_some (frags : List (String × String)) (fc : FunctionCall) :
    frags.foldl fcStep (some fc) =
      some { name := (frags.map Prod.fst).foldl (fun r s => r ++ s) fc.name,
             arguments := (frags.map Prod.snd).foldl (fun r s => r ++ s) fc.arguments } := by
  induction frags generalizing fc with
  | nil => rfl
  | cons p ps ih => simp [List.foldl_cons, fcStep, ih]

theorem foldl_fcStep_none (frags : List (String × String)) :
    frags.foldl fcStep none =
      if frags = [] then none
      else some { name := String.join (frags.map Prod.fst),
                  arguments := String.join (frags.map Prod.snd) } := by
  cases frags with
  | nil => rfl
  | cons p ps =>
    simp [List.foldl_cons, fcStep, foldl_fcStep_some, String.join]

/-- Claim C7 fails as universally stated: a function-call delta carrying an
explicit JSON null content makes the code run `choice.content += null`,
which appends the coerced text "null" - here the final content is "null"
although the stream carried no content fragment at all for that index. -/
theorem null_content_coercion_counterexample :
    slotContent (aggregateDeltas [exNullContentCC]) 0 = some "null" ∧
    contentFrags [exNullContentCC] 0 = [] := by
  exact ⟨rfl, rfl⟩

/-- Claim C7 (amended): for every choice index of a stream none of whose
function-call deltas at that index carries an explicit null content, the
aggregated result is a left fold over the delta frames in arrival order:
the final content equals the concatenation of the content fragments for
that index (some of the empty-string-seeded concatenation once a fragment
arrived, none if none did), and the final function_call name and arguments
equal the concatenations of the name and arguments fragments (both buffers
starting empty, present once a function-call fragment arrived). -/
theorem aggregation_is_concatenation (ccs : List ChunkChoice) (i : Nat)
    (hnull : ∀ cc ∈ ccs, cc.index = i → isNullContentFC cc.delta = false) :
    slotContent (aggregateDeltas ccs) i =
      (if contentFrags ccs i = [] then none
       else some (String.join (contentFrags ccs i))) ∧
    slotFunctionCall (aggregateDeltas ccs) i =
      (if fcFrags ccs i = [] then none
       else some { name := String.join ((fcFrags ccs i).map Prod.fst),
                   arguments := String.join ((fcFrags ccs i).map Prod.snd) }) := by
  constructor
  · rw [aggregateDeltas, slotContent_foldl ccs i [] hnull]
    have hbase : slotContent [] i = none := rfl
    rw [hbase, foldl_contentStep_none]
  · rw [aggregateDeltas, slotFunctionCall_foldl ccs i []]
    have hbase : slotFunctionCall [] i = none := rfl
    rw [hbase, foldl_fcStep_none]

theorem aggregation_is_concatenation_witness :
    slotContent (aggregateDeltas exInterleavedCCs) 0 =
      (if contentFrags exInterleavedCCs 0 = [] then none
       else some (String.join (contentFrags exInterleavedCCs 0))) ∧
    slotFunctionCall (aggregateDeltas exInterleavedCCs) 0 =
      (if fcFrags exInterleavedCCs 0 = [] then none
       else some { name := String.join ((fcFrags exInterleavedCCs 0).map Prod.fst),
                   arguments := String.join ((fcFrags exInterleavedCCs 0).map Prod.snd) }) :=
  aggregation_is_concatenation exInterleavedCCs 0 (by decide)


theorem mapExcept_ok_length {ε α β : Type} (f : α → Except ε β) :
    ∀ (xs : List α) (ys : List β), mapExcept f xs = .ok ys → ys.length = xs.length := by
  intro xs
  induction xs with
  | nil =>
    intro ys h
    simp [mapExcept] at h
    simp [← h]
  | cons x xs ih =>
    intro ys h
    unfold mapExcept at h
    cases hf : f x with
    | error e => rw [hf] at h; simp at h
    | ok y =>
      rw [hf] at h
      cases hm : mapExcept f xs with
      | error e => rw [hm] at h; simp at h
      | ok ys' =>
        rw [hm] at h
        simp at h
        simp [← h, ih ys' hm]

theorem mapExcept_ok_get {ε α β : Type} (f : α → Except ε β) :
    ∀ (xs : List α) (ys : List β), mapExcept f xs = .ok ys →
      ∀ (i : Nat) (x : α), xs[i]? = some x →
        ∃ y, ys[i]? = some y ∧ f x = .ok y := by
  intro xs
  induction xs with
  | nil => intro ys h i x hx; simp at hx
  | cons a xs ih =>
    intro ys h i x hx
    unfold mapExcept at h
    cases hf : f a with
    | error e => rw [hf] at h; simp at h
    | ok y =>
      rw [hf] at h
      cases hm : mapExcept f xs with
      | error e => rw [hm] at h; simp at h
      | ok ys' =>
        rw [hm] at h
        simp at h
        cases i with
        | zero =>
          simp at hx
          exact ⟨y, by simp [← h], by rw [← hx, hf]⟩
        | succ n =>
          simp at hx
          obtain ⟨y', hy', hfy'⟩ := ih ys' hm n x hx
          refine ⟨y', ?_, hfy'⟩
          rw [← h]
          simpa using hy'

theorem getSlot_eq_some {α : Type} :
    ∀ (xs : List (Option α)) (i : Nat) (v : α),
      getSlot xs i = some v ↔ xs[i]? = some (some v) := by
  intro xs
  induction xs with
  | nil => intro i v; simp [getSlot]
  | cons x t ih =>
    intro i v
    cases i with
    | zero => simp [getSlot]
    | succ n => simpa [getSlot] using ih n v

theorem normalizeRoles_hole :
    ∀ (slots : List (Option DraftChoice)), none ∈ slots →
      normalizeRoles slots = .error .typeError := by
  intro slots h
  induction slots with
  | nil => cases h
  | cons s rest ih =>
    cases s with
    | none => rfl
    | some d =>
      have hmem : none ∈ rest := by
        rcases List.mem_cons.mp h with h1 | h2
        · exact absurd h1 (by simp)
        · exact h2
      have := ih hmem
      unfold normalizeRoles at this ⊢
      unfold mapExcept
      rw [show defaultRole (some d) =
        .ok (if d.role = none then { d with role := some Role.assistant } else d)
        from rfl]
      rw [this]

theorem validateChoice_ok_role (d : DraftChoice) (c : Choice)
    (h : validateChoice d = .ok c) : d.role = some c.role := by
  unfold validateChoice at h
  cases hr : d.role <;> cases hc : d.content <;> cases hf : d.finishReason <;>
    rw [hr, hc, hf] at h <;> simp at h
  subst h
  rfl

/-- Claim C8: every non-cancelled stream and every buffered response goes
through the shared defaulting-plus-validation finalization, and whenever it
returns a result, a slot whose role was never set by the wire yields the
role "assistant" while a slot whose role was set keeps it unchanged. -/
theorem role_defaulting :
    (∀ st : StreamState, st.cancelled = false →
      finalize st = finalizeChoices st.choices) ∧
    (∀ raw : List RawBufferedChoice,
      createCompletionsBuffered raw =
        finalizeChoices ((parseBufferedResponse raw).map some)) ∧
    (∀ slots res, finalizeChoices slots = .ok res →
      res.length = slots.length ∧
      ∀ (i : Nat) (d : DraftChoice) (c : Choice),
        getSlot slots i = some d → res[i]? = some c →
          (d.role = none → c.role = Role.assistant) ∧
          (∀ r, d.role = some r → c.role = r)) := by
  refine ⟨?_, ?_, ?_⟩
  · intro st h
    simp [finalize, h]
  · intro raw
    rfl
  · intro slots res h
    unfold finalizeChoices at h
    cases hn : normalizeRoles slots with
    | error e => rw [hn] at h; simp at h
    | ok ds =>
      rw [hn] at h
      unfold normalizeRoles at hn
      constructor
      · rw [mapExcept_ok_length validateChoice ds res h,
          mapExcept_ok_length defaultRole slots ds hn]
      · intro i d c hslot hres
        have hget : slots[i]? = some (some d) := (getSlot_eq_some slots i d).mp hslot
        obtain ⟨d', hd', hok⟩ := mapExcept_ok_get defaultRole slots ds hn i (some d) hget
        have hd'eq : d' = if d.role = none then { d with role := some Role.assistant } else d := by
          simp only [defaultRole, Except.ok.injEq] at hok
          exact hok.symm
        obtain ⟨c', hc', hvc⟩ := mapExcept_ok_get validateChoice ds res h i d' hd'
        have hcc : c' = c := by
          rw [hc'] at hres
          exact (Option.some.injEq _ _).mp hres
        subst hcc
        have hrole := validateChoice_ok_role d' c' hvc
        constructor
        · intro hnone
          rw [hd'eq, if_pos hnone] at hrole
          simp at hrole
          exact hrole.symm
        · intro r hr
          have : d.role ≠ none := by rw [hr]; simp
          rw [hd'eq, if_neg this] at hrole
          rw [hr] at hrole
          simp at hrole
          exact hrole.symm

theorem role_defaulting_witness :
    finalizeChoices exRoleSlots = Except.ok exRoleChoices ∧
    ({ role := Role.assistant, content := "Pong", finishReason := "stop" } : Choice).role =
      Role.assistant :=
  ⟨rfl,
   ((role_defaulting.2.2 exRoleSlots exRoleChoices rfl).2 0 exDraftNoRole
     { role := Role.assistant, content := "Pong", finishReason := "stop" }
     rfl rfl).1 rfl⟩

theorem applyChunkChoice_length (xs : List (Option DraftChoice)) (cc : ChunkChoice) :
    (applyChunkChoice xs cc).length = max xs.length (cc.index + 1) := by
  unfold applyChunkChoice
  rw [setSlot_length]

theorem foldl_applyChunkChoice_length (ccs : List ChunkChoice) :
    ∀ xs : List (Option DraftChoice),
      (ccs.foldl applyChunkChoice xs).length =
        ccs.foldl (fun m cc => max m (cc.index + 1)) xs.length := by
  induction ccs with
  | nil => intro xs; rfl
  | cons cc ccs ih =>
    intro xs
    simp only [List.foldl_cons]
    rw [ih, applyChunkChoice_length]

theorem normalizeRoles_ok_no_hole (slots : List (Option DraftChoice))
    (ds : List DraftChoice) (h : normalizeRoles slots = .ok ds) :
    ∀ s ∈ slots, s ≠ none := by
  intro s hs hnone
  subst hnone
  rw [normalizeRoles_hole slots hs] at h
  simp at h

/-- Claim C10 fails in one detail: a non-cancelled stream whose only delta
targets index 1 indeed never produces a normal result, but the failure is
the TypeError raised while the post-stream role-defaulting loop visits the
hole at index 0 - before the final shape validation ever runs (and the
conversation layer's choice-count check is never reached). -/
theorem sparse_choices_failure_counterexample :
    createCompletionsStream parseOnlyC1 none ["data: c1\ndata: [DONE]"] =
      .error CompletionsError.typeError ∧
    CompletionsError.typeError ≠ CompletionsError.choiceValidation := by
  exact ⟨rfl, by decide⟩

/-- Claim C10 (amended): the aggregator stores each choice at its
remote-assigned slot, so the buffer length is the maximum delta index plus
one (0 with no deltas); a buffer containing a hole makes finalization fail
with the role-normalization TypeError (so a stream whose deltas skip an
index below the maximum can never yield a normal result); and a normal
finalization result is contiguous - as long as the buffer, with every slot
filled and validated. -/
theorem aggregator_slot_invariants :
    (∀ ccs : List ChunkChoice,
      (aggregateDeltas ccs).length =
        ccs.foldl (fun m cc => max m (cc.index + 1)) 0) ∧
    (∀ slots : List (Option DraftChoice), none ∈ slots →
      finalizeChoices slots = .error .typeError) ∧
    (∀ slots res, finalizeChoices slots = .ok res →
      res.length = slots.length ∧ ∀ s ∈ slots, s ≠ none) := by
  refine ⟨?_, ?_, ?_⟩
  · intro ccs
    unfold aggregateDeltas
    exact foldl_applyChunkChoice_length ccs []
  · intro slots h
    unfold finalizeChoices
    rw [normalizeRoles_hole slots h]
  · intro slots res h
    unfold finalizeChoices at h
    cases hn : normalizeRoles slots with
    | error e => rw [hn] at h; simp at h
    | ok ds =>
      rw [hn] at h
      refine ⟨?_, normalizeRoles_ok_no_hole slots ds hn⟩
      rw [mapExcept_ok_length validateChoice ds res h]
      unfold normalizeRoles at hn
      rw [mapExcept_ok_length defaultRole slots ds hn]

theorem aggregator_slot_invariants_witness :
    finalizeChoices [none, some exDraftNoRole] =
      Except.error CompletionsError.typeError ∧
    ([({ role := Role.assistant, content := "Pong", finishReason := "stop" } : Choice)]).length =
      [some exDraftNoRole].length :=
  ⟨aggregator_slot_invariants.2.1 [none, some exDraftNoRole] (by decide),
   (aggregator_slot_invariants.2.2 [some exDraftNoRole]
     [{ role := Role.assistant, content := "Pong", finishReason := "stop" }] rfl).1⟩

/-- Claim C9: function-call dispatch looks the name up in the registry,
failing with the function-not-found error when absent (without invoking any
callable); otherwise the raw arguments string is repaired and JSON-parsed
(a parse failure invokes nothing), the parsed value is validated against
the function's declared parameters schema, a validation failure raises the
error listing the violations without invoking the callable, and on success
the callable is invoked with exactly the parsed, validated value and its
result is returned.  The second component of the result records every
invocation of the callable. -/
theorem callFunction_dispatch {S J R : Type} (repair : String → String)
    (jsonParse : String → Except String J)
    (validate : S → J → Option (List String))
    (reg : List (String × UserFunctionModel S J R)) (n s : String) :
    (lookupFn reg n = none →
      callFunctionModel repair jsonParse validate reg n s =
        (.error (.functionNotFound n), [])) ∧
    (∀ uf m, lookupFn reg n = some uf → jsonParse (repair s) = .error m →
      callFunctionModel repair jsonParse validate reg n s =
        (.error (.jsonParseError m), [])) ∧
    (∀ uf args errs, lookupFn reg n = some uf → jsonParse (repair s) = .ok args →
      validate uf.parameters args = some errs →
      callFunctionModel repair jsonParse validate reg n s =
        (.error (.invalidArguments errs), [])) ∧
    (∀ uf args, lookupFn reg n = some uf → jsonParse (repair s) = .ok args →
      validate uf.parameters args = none →
      callFunctionModel repair jsonParse validate reg n s =
        (.ok (uf.func args), [args])) := by
  refine ⟨?_, ?_, ?_, ?_⟩
  · intro h
    simp [callFunctionModel, h]
  · intro uf m h hp
    simp [callFunctionModel, parseArgumentsModel, h, hp]
  · intro uf args errs h hp hv
    simp [callFunctionModel, parseArgumentsModel, h, hp, hv]
  · intro uf args h hp hv
    simp [callFunctionModel, parseArgumentsModel, h, hp, hv]

theorem callFunction_dispatch_witness :
    callFunctionModel id exJsonParse exValidate exRegistry "get_current_weather" "7" =
      (Except.ok 8, [7]) ∧
    callFunctionModel id exJsonParse exValidate exRegistry "get_humidity" "7" =
      (Except.error (ChatError.functionNotFound "get_humidity"), []) :=
  ⟨(callFunction_dispatch id exJsonParse exValidate exRegistry
      "get_current_weather" "7").2.2.2
      { name := "get_current_weather", parameters := 10, func := fun j => j + 1 }
      7 rfl rfl rfl,
   (callFunction_dispatch id exJsonParse exValidate exRegistry
      "get_humidity" "7").1 rfl⟩

end Completions
